import Mathlib

/-
Verification of the `taosrest.restclient` module: a thin REST client that
logs in to obtain a bearer token, posts SQL queries, and converts the
timestamp strings of a query response into timezone-aware datetime values.

The network layer (urlopen, json.load) is modelled by taking the decoded
JSON response as an explicit input.  Python exceptions are modelled by
`Except PyError`.
-/

/-- A Python `datetime` carrying a fixed-offset `timezone`: the result of
`datetime.strptime(s, "%Y-%m-%dT%H:%M:%S.%f%z")`.  The offset is the
`timedelta(seconds := gmtoff, microseconds := gmtoffFrac)` CPython passes
to `timezone`. -/
structure PyDatetime where
  year : Nat
  month : Nat
  day : Nat
  hour : Nat
  minute : Nat
  second : Nat
  microsecond : Nat
  gmtoff : Int
  gmtoffFrac : Int
  deriving DecidableEq, Repr

/-- A decoded JSON cell value as the Python `json` module produces it, plus
the `datetime` constructor that `_convert_time` writes back into rows.  The
client never computes with floats, it only passes them through, so an IEEE
double is kept abstractly as mantissa and binary exponent. -/
inductive CellValue where
  | null
  | bool (b : Bool)
  | int (n : Int)
  | float (mantissa : Int) (exp : Int)
  | str (s : String)
  | datetime (dt : PyDatetime)
  deriving DecidableEq, Repr

/-- The Python exceptions the client can raise: the two domain errors of
`taosrest.errors` and the builtin exceptions of the conversion path. -/
inductive PyError where
  | connectionError (desc : String) (code : Int)
  | executionError (desc : String) (code : Int)
  | valueError
  | typeError
  | indexError
  | keyError
  deriving DecidableEq, Repr

/-- The two typed domain errors of the spec, as opposed to generic
transport or parsing failures. -/
def isDomainError : PyError → Bool
  | .connectionError _ _ => true
  | .executionError _ _ => true
  | _ => false

/-! ## strptime for the fixed format "%Y-%m-%dT%H:%M:%S.%f%z"

CPython compiles the format to a regex (module `_strptime`) and matches it
case-insensitively against the whole input.  The per-directive patterns:
  %Y  four digits
  %m  two digits 01-12, else one digit 1-9
  %d  two digits 01-31, else one digit 1-9
  %H  two digits 00-23, else one digit 0-9
  %M  two digits 00-59, else one digit 0-9
  %S  two digits 00-61, else one digit 0-9
  %f  one to six digits, right-padded to microseconds
  %z  sign, two digits, optional colon, two digits, then an optional
      seconds group (optional colon, two digits, optional dot plus one to
      six fraction digits), or the single letter Z.
Afterwards the `datetime` constructor validates the field ranges (year at
least 1, day at most the length of the month, second at most 59) and the
`timezone` constructor requires the offset to be strictly inside one day. -/

/-- Numeric value of a decimal digit character. -/
def digitVal (c : Char) : Option Nat :=
  if '0' ≤ c ∧ c ≤ '9' then some (c.toNat - '0'.toNat) else none

/-- %Y: exactly four digits. -/
def parseY : List Char → Option (Nat × List Char)
  | c1 :: c2 :: c3 :: c4 :: rest =>
    match digitVal c1, digitVal c2, digitVal c3, digitVal c4 with
    | some a, some b, some c, some d => some (1000 * a + 100 * b + 10 * c + d, rest)
    | _, _, _, _ => none
  | _ => none

/-- Exactly two digits. -/
def parse2 : List Char → Option (Nat × List Char)
  | c1 :: c2 :: rest =>
    match digitVal c1, digitVal c2 with
    | some a, some b => some (10 * a + b, rest)
    | _, _ => none
  | _ => none

/-- A regex alternation of the shape "two admissible digits, else one
admissible digit": the two-digit branch is tried first, and a later
mismatch of the following literal separator cannot be rescued by
backtracking because the separators of the format are never digits. -/
def parse2or1 (valid2 valid1 : Nat → Bool) : List Char → Option (Nat × List Char)
  | [] => none
  | c1 :: rest1 =>
    match digitVal c1 with
    | none => none
    | some v1 =>
      match rest1 with
      | [] => if valid1 v1 then some (v1, []) else none
      | c2 :: rest2 =>
        match digitVal c2 with
        | some v2 =>
          if valid2 (10 * v1 + v2) then some (10 * v1 + v2, rest2)
          else if valid1 v1 then some (v1, rest1) else none
        | none => if valid1 v1 then some (v1, rest1) else none

/-- Consume one character satisfying the predicate. -/
def expect (p : Char → Bool) : List Char → Option (List Char)
  | c :: rest => if p c then some rest else none
  | [] => none

/-- Greedily take at most `fuel` leading digits. -/
def takeDigits : Nat → List Char → List Nat × List Char
  | 0, cs => ([], cs)
  | _ + 1, [] => ([], [])
  | fuel + 1, c :: cs =>
    match digitVal c with
    | some v =>
      let r := takeDigits fuel cs
      (v :: r.1, r.2)
    | none => ([], c :: cs)

/-- %f: one to six digits, greedy, right-padded with zeros to a
microsecond count. -/
def parseF (cs : List Char) : Option (Nat × List Char) :=
  match takeDigits 6 cs with
  | ([], _) => none
  | (vs, rest) => some (vs.foldl (fun a v => 10 * a + v) 0 * 10 ^ (6 - vs.length), rest)

/-- Strip one leading colon, reporting whether one was present. -/
def splitColon (cs : List Char) : Bool × List Char :=
  match cs with
  | [] => (false, [])
  | c :: t => if c = ':' then (true, t) else (false, cs)

/-- Optional fraction of the %z seconds: a dot followed by one to six
digits, right-padded to microseconds; absent otherwise. -/
def parseDotFrac (cs : List Char) : Nat × List Char :=
  match cs with
  | '.' :: t =>
    (match takeDigits 6 t with
     | ([], _) => (0, cs)
     | (vs, rest) => (vs.foldl (fun a v => 10 * a + v) 0 * 10 ^ (6 - vs.length), rest))
  | _ => (0, cs)

/-- Optional seconds group of %z (greedy).  CPython accepts the group only
when its colon agrees with the colon before the minutes; a disagreement
raises ValueError in the post-processing of the matched text. -/
def parseSecs (colon1 : Bool) (cs : List Char) : Option (Nat × Nat × List Char) :=
  let p := splitColon cs
  match parse2 p.2 with
  | some (ss, r) =>
    if p.1 = colon1 then
      let q := parseDotFrac r
      some (ss, q.1, q.2)
    else none
  | none => some (0, 0, cs)

/-- %z: `Z` means offset zero; otherwise a sign, hours, minutes and an
optional seconds group, combined into whole seconds plus a microsecond
remainder, both negated for a `-` sign. -/
def parseZ (cs : List Char) : Option ((Int × Int) × List Char) :=
  match cs with
  | [] => none
  | c :: rest =>
    if c = 'Z' then some ((0, 0), rest)
    else if c = '+' ∨ c = '-' then
      match parse2 rest with
      | none => none
      | some (hh, r1) =>
        let p1 := splitColon r1
        match parse2 p1.2 with
        | none => none
        | some (mm, r2) =>
          match parseSecs p1.1 r2 with
          | none => none
          | some (ss, frac, r3) =>
            let off : Int := hh * 3600 + mm * 60 + ss
            some ((if c = '-' then -off else off,
                   if c = '-' then -(frac : Int) else (frac : Int)), r3)
    else none

/-- Gregorian leap year. -/
def isLeapYear (y : Nat) : Bool := y % 4 = 0 && (y % 100 ≠ 0 || y % 400 = 0)

/-- Length of a month, as the `datetime` constructor validates days. -/
def daysInMonth (y m : Nat) : Nat :=
  if m = 2 then (if isLeapYear y then 29 else 28)
  else if m = 4 ∨ m = 6 ∨ m = 9 ∨ m = 11 then 30 else 31

/-- The default time format of the /rest/sqlutc api (`RestClient.TIME_FORMAT`). -/
def TIME_FORMAT : String := "%Y-%m-%dT%H:%M:%S.%f%z"

/-- `datetime.strptime(s, TIME_FORMAT)`: the whole input must be consumed
(otherwise "unconverted data remains"), the literal T is matched
case-insensitively, and the constructors of `datetime` and `timezone`
validate the ranges afterwards. -/
def strptime (s : String) : Option PyDatetime :=
  match parseY s.data with
  | none => none
  | some (y, r1) =>
  match expect (fun c => c = '-') r1 with
  | none => none
  | some r2 =>
  match parse2or1 (fun v => 1 ≤ v && v ≤ 12) (fun v => 1 ≤ v && v ≤ 9) r2 with
  | none => none
  | some (mo, r3) =>
  match expect (fun c => c = '-') r3 with
  | none => none
  | some r4 =>
  match parse2or1 (fun v => 1 ≤ v && v ≤ 31) (fun v => 1 ≤ v && v ≤ 9) r4 with
  | none => none
  | some (d, r5) =>
  match expect (fun c => c = 'T' ∨ c = 't') r5 with
  | none => none
  | some r6 =>
  match parse2or1 (fun v => v ≤ 23) (fun v => v ≤ 9) r6 with
  | none => none
  | some (h, r7) =>
  match expect (fun c => c = ':') r7 with
  | none => none
  | some r8 =>
  match parse2or1 (fun v => v ≤ 59) (fun v => v ≤ 9) r8 with
  | none => none
  | some (mi, r9) =>
  match expect (fun c => c = ':') r9 with
  | none => none
  | some r10 =>
  match parse2or1 (fun v => v ≤ 61) (fun v => v ≤ 9) r10 with
  | none => none
  | some (sec, r11) =>
  match expect (fun c => c = '.') r11 with
  | none => none
  | some r12 =>
  match parseF r12 with
  | none => none
  | some (us, r13) =>
  match parseZ r13 with
  | none => none
  | some (z, r14) =>
  if r14 = [] then
    if 1 ≤ y ∧ 1 ≤ d ∧ d ≤ daysInMonth y mo ∧ sec ≤ 59 ∧
       z.1 * 1000000 + z.2 < 86400000000 ∧ -86400000000 < z.1 * 1000000 + z.2 then
      some ⟨y, mo, d, h, mi, sec, us, z.1, z.2⟩
    else none
  else none

/-! ## The query response and `_convert_time` -/

/-- The decoded JSON body of a /rest/sqlutc response.  The keys the source
reads (`status`, `desc`, `code`, `column_meta`, `data`) are `Option`
fields: `none` models an absent dictionary key, whose access raises
KeyError.  `head` and `rows` are never read by the client and are carried
through unchanged.  A column meta entry is the (name, typeCode, typeSize)
triple. -/
structure SqlResp where
  status : Option CellValue
  desc : Option String
  code : Option Int
  head : List String
  column_meta : Option (List (String × Int × Int))
  data : Option (List (List CellValue))
  rows : Int
  deriving DecidableEq, Repr

/-- One cell rewrite `datetime.strptime(row[i], RestClient.TIME_FORMAT)`:
a non-string argument raises TypeError, an unparsable string ValueError. -/
def convertCell : CellValue → Except PyError CellValue
  | .str s =>
    match strptime s with
    | some dt => .ok (.datetime dt)
    | none => .error .valueError
  | _ => .error .typeError

/-- `row[i] = datetime.strptime(row[i], ...)`: the read `row[i]` raises
IndexError when `i` is out of range, then the cell is rewritten in place. -/
def convertRow (i : Nat) (row : List CellValue) : Except PyError (List CellValue) :=
  match row.get? i with
  | none => .error .indexError
  | some c =>
    match convertCell c with
    | .error e => .error e
    | .ok c' => .ok (row.set i c')

/-- The inner loop `for row in data` of `_convert_time`, for one timestamp
column index. -/
def convertRows (i : Nat) : List (List CellValue) → Except PyError (List (List CellValue))
  | [] => .ok []
  | row :: rest =>
    match convertRow i row with
    | .error e => .error e
    | .ok row' =>
      match convertRows i rest with
      | .error e => .error e
      | .ok rest' => .ok (row' :: rest')

/-- The outer loop `for i in range(len(meta)): if meta[i][1] == 9:` of
`_convert_time`; `i0` is the column index of the head of `ms`. -/
def convertCols : List (String × Int × Int) → Nat → List (List CellValue) →
    Except PyError (List (List CellValue))
  | [], _, data => .ok data
  | m :: ms, i0, data =>
    if m.2.1 = 9 then
      match convertRows i0 data with
      | .error e => .error e
      | .ok data' => convertCols ms (i0 + 1) data'
    else convertCols ms (i0 + 1) data

/-- `_convert_time(resp)` on the already-extracted `column_meta` and
`data` values. -/
def convert_time (meta : List (String × Int × Int)) (data : List (List CellValue)) :
    Except PyError (List (List CellValue)) :=
  convertCols meta 0 data

/-- `sql()` after the HTTP round trip, taking the decoded JSON response:
the status check, the ExecutionError raise (reading `desc` then `code`),
the in-place `_convert_time` pass (reading `column_meta` then `data`), and
the return of the same response object with its rewritten data. -/
def sql (resp : SqlResp) : Except PyError SqlResp :=
  match resp.status with
  | none => .error .keyError
  | some st =>
    if st = .str "error" then
      match resp.desc with
      | none => .error .keyError
      | some d =>
        match resp.code with
        | none => .error .keyError
        | some c => .error (.executionError d c)
    else
      match resp.column_meta with
      | none => .error .keyError
      | some meta =>
        match resp.data with
        | none => .error .keyError
        | some data =>
          match convert_time meta data with
          | .error e => .error e
          | .ok data' => .ok { resp with data := some data' }

/-! ## Construction and the login exchange -/

/-- The decoded JSON body of a /rest/login response. -/
structure LoginResp where
  code : Int
  desc : String
  deriving DecidableEq, Repr

/-- `get_token` on the decoded login response: a non-zero `code` raises
ConnectionError carrying the description and the code, otherwise `desc`
is the token. -/
def get_token (resp : LoginResp) : Except PyError String :=
  if resp.code ≠ 0 then .error (.connectionError resp.desc resp.code)
  else .ok resp.desc

/-- The attributes `__init__` stores.  `timeout := none` models the
`socket` module default used when the caller passes None. -/
structure RestClient where
  login_url : String
  sql_utc_url : String
  timeout : Option Int
  token : String
  headers : List (String × String)
  deriving DecidableEq, Repr

/-- `RestClient.__init__`: builds the two URLs by string interpolation,
resolves the timeout, then acquires the token; a login failure propagates
and no client value is produced.  On success the auth header
`Authorization: Taosd <token>` is stored. -/
def mkRestClient (host : String) (port : Int) (user password : String)
    (timeout : Option Int) (loginResp : LoginResp) : Except PyError RestClient :=
  let login_url := "http://" ++ host ++ ":" ++ toString port ++ "/rest/login/" ++
    user ++ "/" ++ password
  let sql_utc_url := "http://" ++ host ++ ":" ++ toString port ++ "/rest/sqlutc"
  match get_token loginResp with
  | .error e => .error e
  | .ok token =>
    .ok { login_url := login_url, sql_utc_url := sql_utc_url, timeout := timeout,
          token := token, headers := [("Authorization", "Taosd " ++ token)] }

/-- The HTTP request `sql()` sends: `Request(self.sql_utc_url, data, self.headers)`
with `data = q.encode("utf8")`. -/
structure HttpRequest where
  url : String
  body : List Nat
  headers : List (String × String)
  deriving DecidableEq, Repr

/-- `q.encode("utf8")` as a byte list. -/
def utf8Encode (q : String) : List Nat := q.toUTF8.toList.map (fun b => b.toNat)

/-- The request object built by `sql()` before `urlopen`. -/
def RestClient.sqlRequest (c : RestClient) (q : String) : HttpRequest :=
  { url := c.sql_utc_url, body := utf8Encode q, headers := c.headers }

/-- One `sql()` call as a state transition on the client: the method body
assigns no attribute of `self`, so the state-passing embedding returns the
client unchanged next to the request it sent and the processed response
(`net` stands for the server producing the decoded JSON body). -/
def RestClient.sqlCall (c : RestClient) (q : String) (net : HttpRequest → SqlResp) :
    RestClient × Except PyError SqlResp :=
  (c, sql (net (c.sqlRequest q)))

/-! ## The canonical timestamp shape of the spec -/

/-- Two decimal digits. -/
def pad2 (n : Nat) : List Char := [Nat.digitChar (n / 10), Nat.digitChar (n % 10)]

/-- Four decimal digits. -/
def pad4 (n : Nat) : List Char :=
  [Nat.digitChar (n / 1000 % 10), Nat.digitChar (n / 100 % 10),
   Nat.digitChar (n / 10 % 10), Nat.digitChar (n % 10)]

/-- Six decimal digits. -/
def pad6 (n : Nat) : List Char :=
  [Nat.digitChar (n / 100000 % 10), Nat.digitChar (n / 10000 % 10),
   Nat.digitChar (n / 1000 % 10), Nat.digitChar (n / 100 % 10),
   Nat.digitChar (n / 10 % 10), Nat.digitChar (n % 10)]

/-- The timestamp string shape named by the spec:
YYYY-MM-DDTHH:MM:SS.ffffff followed by a numeric UTC offset sign, two
offset hour digits and two offset minute digits, with no colon. -/
def canonicalTs (y mo d h mi s us : Nat) (negOff : Bool) (oh om : Nat) : String :=
  String.mk (pad4 y ++ ('-' :: (pad2 mo ++ ('-' :: (pad2 d ++ ('T' :: (pad2 h ++
    (':' :: (pad2 mi ++ (':' :: (pad2 s ++ ('.' :: (pad6 us ++
    ((if negOff then '-' else '+') :: (pad2 oh ++ pad2 om)))))))))))))))

/-! ## Reduction lemmas for strptime on the canonical shape -/

theorem digitVal_digitChar (v : Nat) (h : v ≤ 9) : digitVal (Nat.digitChar v) = some v := by
  interval_cases v <;> decide

theorem digitChar_ne_colon (v : Nat) (h : v ≤ 9) : (Nat.digitChar v = ':') = False := by
  interval_cases v <;> decide

theorem parseY_pad4 (y : Nat) (hy : y ≤ 9999) (rest : List Char) :
    parseY (pad4 y ++ rest) = some (y, rest) := by
  have h1 : y / 1000 % 10 ≤ 9 := by omega
  have h2 : y / 100 % 10 ≤ 9 := by omega
  have h3 : y / 10 % 10 ≤ 9 := by omega
  have h4 : y % 10 ≤ 9 := by omega
  simp [pad4, parseY, digitVal_digitChar _ h1, digitVal_digitChar _ h2,
    digitVal_digitChar _ h3, digitVal_digitChar _ h4]
  omega

theorem parse2_pad2 (n : Nat) (hn : n ≤ 99) (rest : List Char) :
    parse2 (pad2 n ++ rest) = some (n, rest) := by
  have h1 : n / 10 ≤ 9 := by omega
  have h2 : n % 10 ≤ 9 := by omega
  simp [pad2, parse2, digitVal_digitChar _ h1, digitVal_digitChar _ h2]
  omega

theorem parse2or1_pad2 (valid2 valid1 : Nat → Bool) (n : Nat) (hn : n ≤ 99)
    (hv : valid2 n = true) (rest : List Char) :
    parse2or1 valid2 valid1 (pad2 n ++ rest) = some (n, rest) := by
  have h1 : n / 10 ≤ 9 := by omega
  have h2 : n % 10 ≤ 9 := by omega
  have hn' : 10 * (n / 10) + n % 10 = n := by omega
  simp [pad2, parse2or1, digitVal_digitChar _ h1, digitVal_digitChar _ h2, hn', hv]

theorem expect_self (p : Char → Bool) (c : Char) (rest : List Char) (h : p c = true) :
    expect p (c :: rest) = some rest := by simp [expect, h]

theorem takeDigits_pad6 (us : Nat) (rest : List Char) :
    takeDigits 6 (pad6 us ++ rest) =
      ([us / 100000 % 10, us / 10000 % 10, us / 1000 % 10, us / 100 % 10,
        us / 10 % 10, us % 10], rest) := by
  have h1 : us / 100000 % 10 ≤ 9 := by omega
  have h2 : us / 10000 % 10 ≤ 9 := by omega
  have h3 : us / 1000 % 10 ≤ 9 := by omega
  have h4 : us / 100 % 10 ≤ 9 := by omega
  have h5 : us / 10 % 10 ≤ 9 := by omega
  have h6 : us % 10 ≤ 9 := by omega
  simp [pad6, takeDigits, digitVal_digitChar _ h1, digitVal_digitChar _ h2,
    digitVal_digitChar _ h3, digitVal_digitChar _ h4, digitVal_digitChar _ h5,
    digitVal_digitChar _ h6]

theorem parseF_pad6 (us : Nat) (hus : us ≤ 999999) (rest : List Char) :
    parseF (pad6 us ++ rest) = some (us, rest) := by
  simp [parseF, takeDigits_pad6 us rest]
  omega

theorem splitColon_pad2 (n : Nat) (hn : n ≤ 99) (rest : List Char) :
    splitColon (pad2 n ++ rest) = (false, pad2 n ++ rest) := by
  have h1 : n / 10 ≤ 9 := by omega
  simp [pad2, splitColon, digitChar_ne_colon _ h1]

theorem parseSecs_nil (b : Bool) : parseSecs b [] = some (0, 0, []) := rfl

theorem parseZ_canonical (negOff : Bool) (oh om : Nat) (hoh : oh ≤ 99) (hom : om ≤ 99) :
    parseZ ((if negOff then '-' else '+') :: (pad2 oh ++ pad2 om)) =
      some ((if negOff then -((oh : Int) * 3600 + (om : Int) * 60)
             else (oh : Int) * 3600 + (om : Int) * 60, 0), []) := by
  have hmm : parse2 (pad2 om) = some (om, []) := by
    have := parse2_pad2 om hom []
    rwa [List.append_nil] at this
  have hsp : splitColon (pad2 om) = (false, pad2 om) := by
    have := splitColon_pad2 om hom []
    rwa [List.append_nil] at this
  cases negOff
  · simp only [Bool.false_eq_true, if_false, parseZ,
      parse2_pad2 oh hoh, hsp, hmm, parseSecs_nil]
    rw [if_neg (by decide : ¬('+' : Char) = 'Z'), if_pos (by decide),
      if_neg (by decide : ¬('+' : Char) = '-'), if_neg (by decide : ¬('+' : Char) = '-')]
    norm_num
  · simp only [if_true, parseZ, parse2_pad2 oh hoh, hsp, hmm, parseSecs_nil]
    rw [if_neg (by decide : ¬('-' : Char) = 'Z'), if_pos (by decide)]
    norm_num

theorem daysInMonth_le (y m : Nat) : daysInMonth y m ≤ 31 := by
  unfold daysInMonth
  split
  · split <;> omega
  · split <;> omega

set_option maxHeartbeats 1000000 in
/-- On the canonical shape of the spec with in-range fields, strptime
succeeds and returns exactly those fields, the offset taken verbatim from
the string and not folded into the time of day. -/
theorem strptime_canonicalTs (y mo d h mi s us : Nat) (negOff : Bool) (oh om : Nat)
    (hy1 : 1 ≤ y) (hy2 : y ≤ 9999) (hmo1 : 1 ≤ mo) (hmo2 : mo ≤ 12)
    (hd1 : 1 ≤ d) (hd2 : d ≤ daysInMonth y mo) (hh : h ≤ 23) (hmi : mi ≤ 59)
    (hs : s ≤ 59) (hus : us ≤ 999999) (hoh : oh ≤ 23) (hom : om ≤ 59) :
    strptime (canonicalTs y mo d h mi s us negOff oh om) =
      some ⟨y, mo, d, h, mi, s, us,
        if negOff then -((oh : Int) * 3600 + (om : Int) * 60)
        else (oh : Int) * 3600 + (om : Int) * 60, 0⟩ := by
  have hd31 : d ≤ 31 := le_trans hd2 (daysInMonth_le y mo)
  have hbmo : (fun v => 1 ≤ v && v ≤ 12 : Nat → Bool) mo = true := by
    simp only [Bool.and_eq_true, decide_eq_true_eq]; exact ⟨hmo1, hmo2⟩
  have hbd : (fun v => 1 ≤ v && v ≤ 31 : Nat → Bool) d = true := by
    simp only [Bool.and_eq_true, decide_eq_true_eq]; exact ⟨hd1, hd31⟩
  have hbh : (fun v => v ≤ 23 : Nat → Bool) h = true := by
    simp only [decide_eq_true_eq]; exact hh
  have hbmi : (fun v => v ≤ 59 : Nat → Bool) mi = true := by
    simp only [decide_eq_true_eq]; exact hmi
  have hbs : (fun v => v ≤ 61 : Nat → Bool) s = true := by
    simp only [decide_eq_true_eq]; omega
  have edash : ∀ r : List Char, expect (fun c => c = '-') ('-' :: r) = some r :=
    fun r => expect_self _ _ _ (by decide)
  have eT : ∀ r : List Char, expect (fun c => c = 'T' ∨ c = 't') ('T' :: r) = some r :=
    fun r => expect_self _ _ _ (by decide)
  have ecolon : ∀ r : List Char, expect (fun c => c = ':') (':' :: r) = some r :=
    fun r => expect_self _ _ _ (by decide)
  have edot : ∀ r : List Char, expect (fun c => c = '.') ('.' :: r) = some r :=
    fun r => expect_self _ _ _ (by decide)
  simp only [strptime, canonicalTs, parseY_pad4 y hy2, edash, eT, ecolon, edot,
    parse2or1_pad2 (fun v => 1 ≤ v && v ≤ 12) (fun v => 1 ≤ v && v ≤ 9) mo (by omega) hbmo,
    parse2or1_pad2 (fun v => 1 ≤ v && v ≤ 31) (fun v => 1 ≤ v && v ≤ 9) d (by omega) hbd,
    parse2or1_pad2 (fun v => v ≤ 23) (fun v => v ≤ 9) h (by omega) hbh,
    parse2or1_pad2 (fun v => v ≤ 59) (fun v => v ≤ 9) mi (by omega) hbmi,
    parse2or1_pad2 (fun v => v ≤ 61) (fun v => v ≤ 9) s (by omega) hbs,
    parseF_pad6 us hus,
    parseZ_canonical negOff oh om (by omega) (by omega)]
  rw [if_pos trivial]
  split <;>
  · split
    · rfl
    next hcon =>
      exfalso
      apply hcon
      refine ⟨hy1, hd1, hd2, hs, ?_, ?_⟩ <;> omega

/-! ## Behaviour of the conversion pass -/

theorem convertRow_ok (i : Nat) (row row' : List CellValue)
    (h : convertRow i row = .ok row') :
    ∃ s dt, row.get? i = some (.str s) ∧ strptime s = some dt ∧
      row' = row.set i (.datetime dt) := by
  unfold convertRow at h
  cases hg : row.get? i with
  | none => rw [hg] at h; exact absurd h (by simp)
  | some c =>
    rw [hg] at h
    cases c with
    | str s =>
      cases hp : strptime s with
      | none => simp [convertCell, hp] at h
      | some dt =>
        refine ⟨s, dt, rfl, hp, ?_⟩
        simp [convertCell, hp] at h
        exact h.symm
    | null => simp [convertCell] at h
    | bool b => simp [convertCell] at h
    | int n => simp [convertCell] at h
    | float m e => simp [convertCell] at h
    | datetime dt => simp [convertCell] at h

theorem convertRow_error_kinds (i : Nat) (row : List CellValue) (e : PyError)
    (h : convertRow i row = .error e) :
    e = .valueError ∨ e = .typeError ∨ e = .indexError := by
  unfold convertRow at h
  cases hg : row.get? i with
  | none => rw [hg] at h; simp at h; simp [h]
  | some c =>
    rw [hg] at h
    cases c with
    | str s =>
      cases hp : strptime s with
      | none => simp [convertCell, hp] at h; simp [h]
      | some dt => simp [convertCell, hp] at h
    | null => simp [convertCell] at h; simp [h]
    | bool b => simp [convertCell] at h; simp [h]
    | int n => simp [convertCell] at h; simp [h]
    | float m e => simp [convertCell] at h; simp [h]
    | datetime dt => simp [convertCell] at h; simp [h]

theorem convertRow_of_parses (i : Nat) (row : List CellValue) (s : String) (dt : PyDatetime)
    (hc : row.get? i = some (.str s)) (hp : strptime s = some dt) :
    convertRow i row = .ok (row.set i (.datetime dt)) := by
  unfold convertRow
  rw [hc]
  simp [convertCell, hp]

theorem convertRows_ok (i : Nat) (data data' : List (List CellValue))
    (h : convertRows i data = .ok data') :
    data'.length = data.length ∧
    ∀ r row, data.get? r = some row →
      ∃ row', data'.get? r = some row' ∧ convertRow i row = .ok row' := by
  induction data generalizing data' with
  | nil =>
    unfold convertRows at h
    simp at h
    subst h
    exact ⟨rfl, by intro r row hr; simp at hr⟩
  | cons row rest ih =>
    unfold convertRows at h
    cases hr : convertRow i row with
    | error e => rw [hr] at h; simp at h
    | ok row1 =>
      rw [hr] at h
      cases hrest : convertRows i rest with
      | error e => rw [hrest] at h; simp at h
      | ok rest1 =>
        rw [hrest] at h
        simp at h
        subst h
        obtain ⟨hlen, hspec⟩ := ih rest1 hrest
        refine ⟨by simp [hlen], ?_⟩
        intro r r0 hr0
        cases r with
        | zero =>
          rw [List.get?_cons_zero] at hr0
          cases hr0
          exact ⟨row1, rfl, hr⟩
        | succ n =>
          rw [List.get?_cons_succ] at hr0
          obtain ⟨row', h1, h2⟩ := hspec n r0 hr0
          exact ⟨row', by rw [List.get?_cons_succ]; exact h1, h2⟩

theorem convertRows_error (i : Nat) (data : List (List CellValue)) (e : PyError)
    (h : convertRows i data = .error e) :
    ∃ row ∈ data, convertRow i row = .error e := by
  induction data with
  | nil => unfold convertRows at h; simp at h
  | cons row rest ih =>
    unfold convertRows at h
    cases hr : convertRow i row with
    | error e1 =>
      rw [hr] at h
      simp at h
      subst h
      exact ⟨row, by simp, hr⟩
    | ok row1 =>
      rw [hr] at h
      cases hrest : convertRows i rest with
      | error e1 =>
        rw [hrest] at h
        simp at h
        subst h
        obtain ⟨r0, hmem, hcr⟩ := ih hrest
        exact ⟨r0, by simp [hmem], hcr⟩
      | ok rest1 => rw [hrest] at h; simp at h

theorem convertRows_exists_ok (i : Nat) (data : List (List CellValue))
    (h : ∀ row ∈ data, ∃ row', convertRow i row = .ok row') :
    ∃ data', convertRows i data = .ok data' := by
  induction data with
  | nil => exact ⟨[], rfl⟩
  | cons row rest ih =>
    obtain ⟨row1, hrow⟩ := h row (by simp)
    obtain ⟨rest1, hrest⟩ := ih (fun r hr => h r (by simp [hr]))
    exact ⟨row1 :: rest1, by unfold convertRows; rw [hrow, hrest]⟩

/-- What a successful `_convert_time` pass did to the data matrix, column
meta list `ms` starting at column index `i0`: row count and row lengths
are preserved, cells of non-timestamp columns are untouched, and every
cell of a timestamp column was a string that strptime accepted and is now
the parsed datetime. -/
theorem convertCols_ok (ms : List (String × Int × Int)) (i0 : Nat)
    (data data' : List (List CellValue)) (h : convertCols ms i0 data = .ok data') :
    data'.length = data.length ∧
    ∀ r row, data.get? r = some row →
      ∃ row', data'.get? r = some row' ∧
        row'.length = row.length ∧
        (∀ k, (∀ j m, ms.get? j = some m → k = i0 + j → m.2.1 ≠ 9) →
          row'.get? k = row.get? k) ∧
        (∀ j m, ms.get? j = some m → m.2.1 = 9 →
          ∃ s dt, row.get? (i0 + j) = some (.str s) ∧ strptime s = some dt ∧
            row'.get? (i0 + j) = some (.datetime dt)) := by
  induction ms generalizing i0 data data' with
  | nil =>
    unfold convertCols at h
    simp at h
    subst h
    refine ⟨rfl, ?_⟩
    intro r row hr
    exact ⟨row, hr, rfl, fun k _ => rfl, fun j m hj => by simp at hj⟩
  | cons m ms ih =>
    unfold convertCols at h
    by_cases htc : m.2.1 = 9
    · rw [if_pos htc] at h
      cases hrows : convertRows i0 data with
      | error e => rw [hrows] at h; simp at h
      | ok data1 =>
        rw [hrows] at h
        obtain ⟨hlen1, hspec1⟩ := convertRows_ok i0 data data1 hrows
        obtain ⟨hlen2, hspec2⟩ := ih (i0 + 1) data1 data' h
        refine ⟨by omega, ?_⟩
        intro r row hr
        obtain ⟨row1, hrow1, hcr⟩ := hspec1 r row hr
        obtain ⟨s0, dt0, hc0, hp0, hset⟩ := convertRow_ok i0 row row1 hcr
        subst hset
        obtain ⟨row', hrow', hlenr, hpres, hts⟩ := hspec2 r _ hrow1
        have hi0lt : i0 < row.length := by
          rcases List.get?_eq_some.mp hc0 with ⟨hlt, _⟩
          exact hlt
        refine ⟨row', hrow', by simpa using hlenr, ?_, ?_⟩
        · intro k hk
          have hki0 : k ≠ i0 := fun hcontra => (hk 0 m rfl (by omega)) htc
          have step1 : row'.get? k = (row.set i0 (.datetime dt0)).get? k := by
            apply hpres
            intro j' m' hj' hkeq
            exact hk (j' + 1) m' (by rw [List.get?_cons_succ]; exact hj') (by omega)
          rw [step1]
          exact List.get?_set_ne _ _ (fun hcontra => hki0 hcontra.symm)
        · intro j m' hj hm9
          cases j with
          | zero =>
            rw [List.get?_cons_zero] at hj
            cases hj
            refine ⟨s0, dt0, by rw [Nat.add_zero]; exact hc0, hp0, ?_⟩
            have step1 : row'.get? (i0 + 0) = (row.set i0 (.datetime dt0)).get? (i0 + 0) := by
              apply hpres
              intro j' m'' hj' hkeq
              omega
            rw [step1, Nat.add_zero]
            exact List.get?_set_eq_of_lt (CellValue.datetime dt0) hi0lt
          | succ n =>
            rw [List.get?_cons_succ] at hj
            obtain ⟨s, dt, hc, hp, hcell⟩ := hts n m' hj hm9
            have heq : (row.set i0 (.datetime dt0)).get? (i0 + 1 + n) = row.get? (i0 + 1 + n) :=
              List.get?_set_ne _ _ (by omega)
            refine ⟨s, dt, ?_, hp, ?_⟩
            · rw [show i0 + (n + 1) = i0 + 1 + n by omega, ← heq]
              exact hc
            · rw [show i0 + (n + 1) = i0 + 1 + n by omega]
              exact hcell
    · rw [if_neg htc] at h
      obtain ⟨hlen, hspec⟩ := ih (i0 + 1) data data' h
      refine ⟨hlen, ?_⟩
      intro r row hr
      obtain ⟨row', hrow', hlenr, hpres, hts⟩ := hspec r row hr
      refine ⟨row', hrow', hlenr, ?_, ?_⟩
      · intro k hk
        apply hpres
        intro j' m' hj' hkeq
        exact hk (j' + 1) m' (by rw [List.get?_cons_succ]; exact hj') (by omega)
      · intro j m' hj hm9
        cases j with
        | zero =>
          rw [List.get?_cons_zero] at hj
          cases hj
          exact absurd hm9 htc
        | succ n =>
          rw [List.get?_cons_succ] at hj
          obtain ⟨s, dt, hc, hp, hcell⟩ := hts n m' hj hm9
          rw [show i0 + (n + 1) = i0 + 1 + n by omega]
          exact ⟨s, dt, hc, hp, hcell⟩

/-- `_convert_time` can only fail with the builtin ValueError, TypeError or
IndexError, never with one of the two domain errors. -/
theorem convertCols_error_kinds (ms : List (String × Int × Int)) (i0 : Nat)
    (data : List (List CellValue)) (e : PyError)
    (h : convertCols ms i0 data = .error e) :
    e = .valueError ∨ e = .typeError ∨ e = .indexError := by
  induction ms generalizing i0 data with
  | nil => unfold convertCols at h; simp at h
  | cons m ms ih =>
    unfold convertCols at h
    by_cases htc : m.2.1 = 9
    · rw [if_pos htc] at h
      cases hrows : convertRows i0 data with
      | error e1 =>
        rw [hrows] at h
        simp at h
        subst h
        obtain ⟨row, _, hrow⟩ := convertRows_error i0 data e1 hrows
        exact convertRow_error_kinds i0 row e1 hrow
      | ok data1 =>
        rw [hrows] at h
        exact ih (i0 + 1) data1 h
    · rw [if_neg htc] at h
      exact ih (i0 + 1) data h

/-- `_convert_time` succeeds when every cell of every timestamp column is
a string strptime accepts. -/
theorem convertCols_exists_ok (ms : List (String × Int × Int)) (i0 : Nat)
    (data : List (List CellValue))
    (h : ∀ j m, ms.get? j = some m → m.2.1 = 9 → ∀ row ∈ data,
      ∃ s dt, row.get? (i0 + j) = some (.str s) ∧ strptime s = some dt) :
    ∃ data', convertCols ms i0 data = .ok data' := by
  induction ms generalizing i0 data with
  | nil => exact ⟨data, rfl⟩
  | cons m ms ih =>
    by_cases htc : m.2.1 = 9
    · have hrows : ∃ data1, convertRows i0 data = .ok data1 := by
        apply convertRows_exists_ok
        intro row hrow
        obtain ⟨s, dt, hc, hp⟩ := h 0 m rfl htc row hrow
        rw [Nat.add_zero] at hc
        exact ⟨row.set i0 (.datetime dt), convertRow_of_parses i0 row s dt hc hp⟩
      obtain ⟨data1, hdata1⟩ := hrows
      obtain ⟨hlen1, hspec1⟩ := convertRows_ok i0 data data1 hdata1
      have hnext : ∀ j m', ms.get? j = some m' → m'.2.1 = 9 → ∀ row1 ∈ data1,
          ∃ s dt, row1.get? (i0 + 1 + j) = some (.str s) ∧ strptime s = some dt := by
        intro j m' hj hm9 row1 hrow1
        obtain ⟨r, hr⟩ := List.mem_iff_get?.mp hrow1
        have hrlt : r < data.length := by
          rcases List.get?_eq_some.mp hr with ⟨hlt, _⟩
          omega
        have hroweq : data.get? r = some (data.get ⟨r, hrlt⟩) := List.get?_eq_get hrlt
        obtain ⟨row1', hrow1', hcr⟩ := hspec1 r _ hroweq
        have hsame : row1 = row1' := by
          rw [hr] at hrow1'
          exact (Option.some.injEq _ _ ▸ hrow1')
        subst hsame
        obtain ⟨s0, dt0, hc0, hp0, hset⟩ := convertRow_ok i0 _ row1 hcr
        obtain ⟨s, dt, hc, hp⟩ := h (j + 1) m'
          (by rw [List.get?_cons_succ]; exact hj) hm9 (data.get ⟨r, hrlt⟩)
          (List.mem_iff_get?.mpr ⟨r, hroweq⟩)
        refine ⟨s, dt, ?_, hp⟩
        rw [hset, List.get?_set_ne _ _ (by omega : i0 ≠ i0 + 1 + j)]
        rw [show i0 + 1 + j = i0 + (j + 1) by omega]
        exact hc
      obtain ⟨data', hd'⟩ := ih (i0 + 1) data1 hnext
      refine ⟨data', ?_⟩
      unfold convertCols
      rw [if_pos htc, hdata1]
      exact hd'
    · have hnext : ∀ j m', ms.get? j = some m' → m'.2.1 = 9 → ∀ row ∈ data,
          ∃ s dt, row.get? (i0 + 1 + j) = some (.str s) ∧ strptime s = some dt := by
        intro j m' hj hm9 row hrow
        obtain ⟨s, dt, hc, hp⟩ := h (j + 1) m'
          (by rw [List.get?_cons_succ]; exact hj) hm9 row hrow
        refine ⟨s, dt, ?_, hp⟩
        rw [show i0 + 1 + j = i0 + (j + 1) by omega]
        exact hc
      obtain ⟨data', hd'⟩ := ih (i0 + 1) data hnext
      refine ⟨data', ?_⟩
      unfold convertCols
      rw [if_neg htc]
      exact hd'

/-- Inversion of a successful `sql()` call: the status key was present and
not the string "error", the meta and data keys were present, the
conversion pass succeeded, and the returned response is the input with its
data rewritten. -/
theorem sql_ok_inv (resp resp' : SqlResp) (hok : sql resp = .ok resp') :
    ∃ st meta data data', resp.status = some st ∧ st ≠ .str "error" ∧
      resp.column_meta = some meta ∧ resp.data = some data ∧
      convert_time meta data = .ok data' ∧
      resp' = { resp with data := some data' } := by
  unfold sql at hok
  split at hok
  · cases hok
  next st hst =>
    split at hok
    next he =>
      split at hok
      · cases hok
      · split at hok
        · cases hok
        · cases hok
    next hne =>
      split at hok
      · cases hok
      next meta hm =>
        split at hok
        · cases hok
        next data hd =>
          split at hok
          · cases hok
          next data' hconv =>
            cases hok
            exact ⟨st, meta, data, data', hst, hne, hm, hd, hconv, rfl⟩

/-! ## The claims -/

/-- C2: a query response with status "error" makes sql() fail with
ExecutionError carrying the desc and code of that response, and returns no
result.  Nothing is assumed about the data payload, so the theorem also
covers malformed timestamp data: the conversion pass is never reached. -/
theorem C2_error_status (resp : SqlResp) (d : String) (c : Int)
    (hst : resp.status = some (.str "error"))
    (hdesc : resp.desc = some d) (hcode : resp.code = some c) :
    sql resp = .error (.executionError d c) ∧ ∀ r, sql resp ≠ .ok r := by
  have h1 : sql resp = .error (.executionError d c) := by
    simp [sql, hst, hdesc, hcode]
  exact ⟨h1, fun r hcontra => by rw [h1] at hcontra; cases hcontra⟩

/-- An error response carrying data that would not survive timestamp
conversion. -/
def errResp : SqlResp :=
  { status := some (.str "error"), desc := some "Invalid SQL", code := some 534,
    head := ["ts"], column_meta := some [("ts", 9, 8)],
    data := some [[.str "not-a-timestamp"], [.int 3]], rows := 2 }

theorem C2_witness :
    errResp.status = some (.str "error") ∧ errResp.desc = some "Invalid SQL" ∧
    errResp.code = some 534 ∧
    sql errResp = .error (.executionError "Invalid SQL" 534) ∧
    sql errResp ≠ .ok errResp :=
  ⟨rfl, rfl, rfl, (C2_error_status errResp "Invalid SQL" 534 rfl rfl rfl).1,
    (C2_error_status errResp "Invalid SQL" 534 rfl rfl rfl).2 errResp⟩

/-- C3: a login response with non-zero code makes construction fail with
ConnectionError carrying exactly that code and description; no client
value is produced. -/
theorem C3_login_failure (host : String) (port : Int) (user password : String)
    (t : Option Int) (lr : LoginResp) (h : lr.code ≠ 0) :
    mkRestClient host port user password t lr =
      .error (.connectionError lr.desc lr.code) ∧
    ∀ cl, mkRestClient host port user password t lr ≠ .ok cl := by
  have h1 : mkRestClient host port user password t lr =
      .error (.connectionError lr.desc lr.code) := by
    unfold mkRestClient get_token
    rw [if_pos h]
  exact ⟨h1, fun cl hc => by rw [h1] at hc; cases hc⟩

/-- A placeholder client value used to state closed witness instances. -/
def dummyClient : RestClient :=
  { login_url := "", sql_utc_url := "", timeout := none, token := "", headers := [] }

theorem C3_witness :
    (LoginResp.mk 3 "Authentication failure").code ≠ 0 ∧
    mkRestClient "h1" 6041 "root" "taosdata" none ⟨3, "Authentication failure"⟩ =
      .error (.connectionError "Authentication failure" 3) ∧
    mkRestClient "h1" 6041 "root" "taosdata" none ⟨3, "Authentication failure"⟩ ≠
      .ok dummyClient :=
  ⟨by decide,
   (C3_login_failure "h1" 6041 "root" "taosdata" none ⟨3, "Authentication failure"⟩
     (by decide)).1,
   (C3_login_failure "h1" 6041 "root" "taosdata" none ⟨3, "Authentication failure"⟩
     (by decide)).2 dummyClient⟩

/-- C4: a successful login response with code 0 and desc T produces a
client whose stored auth header value is `Taosd T` under the Authorization
key, and every query request it builds carries exactly that header. -/
theorem C4_auth_header (host : String) (port : Int) (user password : String)
    (t : Option Int) (lr : LoginResp) (hlr : lr.code = 0) :
    ∃ cl, mkRestClient host port user password t lr = .ok cl ∧
      cl.token = lr.desc ∧
      cl.headers = [("Authorization", "Taosd " ++ lr.desc)] ∧
      ∀ q, (cl.sqlRequest q).headers = [("Authorization", "Taosd " ++ lr.desc)] := by
  have hmk : mkRestClient host port user password t lr = .ok
      { login_url := "http://" ++ host ++ ":" ++ toString port ++ "/rest/login/" ++
          user ++ "/" ++ password,
        sql_utc_url := "http://" ++ host ++ ":" ++ toString port ++ "/rest/sqlutc",
        timeout := t, token := lr.desc,
        headers := [("Authorization", "Taosd " ++ lr.desc)] } := by
    unfold mkRestClient get_token
    rw [if_neg (by omega : ¬lr.code ≠ 0)]
  exact ⟨_, hmk, rfl, rfl, fun q => rfl⟩

/-- The login response and client of the witness instances. -/
def demoLogin : LoginResp := ⟨0, "tok123"⟩

def demoClient : RestClient :=
  { login_url := "http://h1:6041/rest/login/root/taosdata",
    sql_utc_url := "http://h1:6041/rest/sqlutc",
    timeout := none, token := "tok123",
    headers := [("Authorization", "Taosd tok123")] }

theorem C4_witness :
    demoLogin.code = 0 ∧
    ∃ cl, mkRestClient "h1" 6041 "root" "taosdata" none demoLogin = .ok cl ∧
      cl.token = demoLogin.desc ∧
      cl.headers = [("Authorization", "Taosd " ++ demoLogin.desc)] ∧
      ∀ q, (cl.sqlRequest q).headers = [("Authorization", "Taosd " ++ demoLogin.desc)] :=
  ⟨rfl, C4_auth_header "h1" 6041 "root" "taosdata" none demoLogin rfl⟩

/-- C9: construction stores exactly the interpolated login URL
`http://host:port/rest/login/user/password` and the fixed query URL
`http://host:port/rest/sqlutc`. -/
theorem C9_urls (host : String) (port : Int) (user password : String)
    (t : Option Int) (lr : LoginResp) (cl : RestClient)
    (hok : mkRestClient host port user password t lr = .ok cl) :
    cl.login_url = "http://" ++ host ++ ":" ++ toString port ++ "/rest/login/" ++
      user ++ "/" ++ password ∧
    cl.sql_utc_url = "http://" ++ host ++ ":" ++ toString port ++ "/rest/sqlutc" := by
  unfold mkRestClient get_token at hok
  by_cases h : lr.code ≠ 0
  · rw [if_pos h] at hok; cases hok
  · rw [if_neg h] at hok
    cases hok
    exact ⟨rfl, rfl⟩

theorem C9_witness :
    mkRestClient "h1" 6041 "root" "taosdata" none demoLogin = .ok demoClient ∧
    demoClient.login_url = "http://" ++ "h1" ++ ":" ++ toString (6041 : Int) ++
      "/rest/login/" ++ "root" ++ "/" ++ "taosdata" ∧
    demoClient.sql_utc_url = "http://" ++ "h1" ++ ":" ++ toString (6041 : Int) ++
      "/rest/sqlutc" :=
  ⟨rfl, C9_urls "h1" 6041 "root" "taosdata" none demoLogin demoClient rfl⟩

/-- C8: every attribute of the client is written once, at construction,
with the constructed values, and a sql() call — modelled as a state
transition, the method body assigning no attribute of self — leaves the
client value unchanged whether the response is a success or an error. -/
theorem C8_immutable (host : String) (port : Int) (user password : String)
    (t : Option Int) (lr : LoginResp) (cl : RestClient)
    (hok : mkRestClient host port user password t lr = .ok cl) :
    (cl.login_url = "http://" ++ host ++ ":" ++ toString port ++ "/rest/login/" ++
        user ++ "/" ++ password ∧
     cl.sql_utc_url = "http://" ++ host ++ ":" ++ toString port ++ "/rest/sqlutc" ∧
     cl.timeout = t ∧ cl.token = lr.desc ∧
     cl.headers = [("Authorization", "Taosd " ++ lr.desc)]) ∧
    ∀ q net, (cl.sqlCall q net).1 = cl := by
  unfold mkRestClient get_token at hok
  by_cases h : lr.code ≠ 0
  · rw [if_pos h] at hok; cases hok
  · rw [if_neg h] at hok
    cases hok
    exact ⟨⟨rfl, rfl, rfl, rfl, rfl⟩, fun q net => rfl⟩

theorem C8_witness :
    mkRestClient "h1" 6041 "root" "taosdata" none demoLogin = .ok demoClient ∧
    (demoClient.login_url = "http://" ++ "h1" ++ ":" ++ toString (6041 : Int) ++
        "/rest/login/" ++ "root" ++ "/" ++ "taosdata" ∧
     demoClient.sql_utc_url = "http://" ++ "h1" ++ ":" ++ toString (6041 : Int) ++
        "/rest/sqlutc" ∧
     demoClient.timeout = none ∧ demoClient.token = demoLogin.desc ∧
     demoClient.headers = [("Authorization", "Taosd " ++ demoLogin.desc)]) ∧
    (demoClient.sqlCall "select 1" (fun _ => errResp)).1 = demoClient :=
  ⟨rfl,
   (C8_immutable "h1" 6041 "root" "taosdata" none demoLogin demoClient rfl).1,
   (C8_immutable "h1" 6041 "root" "taosdata" none demoLogin demoClient rfl).2
     "select 1" (fun _ => errResp)⟩

/-- C5: whenever sql() returns a result, every cell of every column whose
typeCode is not 9 is exactly the value the JSON decoder produced,
whatever it contains. -/
theorem C5_non_timestamp_identity (resp resp' : SqlResp)
    (meta : List (String × Int × Int)) (data : List (List CellValue))
    (hm : resp.column_meta = some meta) (hd : resp.data = some data)
    (hok : sql resp = .ok resp')
    (data' : List (List CellValue)) (hd' : resp'.data = some data')
    (k : Nat) (hk : ∀ nm tc sz, meta.get? k = some (nm, tc, sz) → tc ≠ 9) :
    ∀ r, (data'.get? r).bind (fun row => row.get? k) =
         (data.get? r).bind (fun row => row.get? k) := by
  obtain ⟨st, meta1, data1, data1', hst, hne, hm1, hd1, hconv, hresp'⟩ :=
    sql_ok_inv resp resp' hok
  rw [hm] at hm1
  rw [hd] at hd1
  rw [hresp'] at hd'
  obtain rfl : meta1 = meta := (Option.some.inj hm1).symm
  obtain rfl : data1 = data := (Option.some.inj hd1).symm
  obtain rfl : data1' = data' := Option.some.inj hd'
  obtain ⟨hlen, hspec⟩ := convertCols_ok meta1 0 data1 data1' hconv
  intro r
  cases hr : data1.get? r with
  | none =>
    have hge : data1.length ≤ r := List.get?_eq_none.mp hr
    have hnone : data1'.get? r = none := List.get?_eq_none.mpr (by omega)
    rw [hnone]
  | some row =>
    obtain ⟨row', hrow', _, hpres, _⟩ := hspec r row hr
    rw [hrow']
    show row'.get? k = row.get? k
    apply hpres
    intro j m hj hkeq
    obtain ⟨nm, tc, sz⟩ := m
    have hjk : j = k := by omega
    subst hjk
    exact hk nm tc sz hj

/-- A response without timestamp columns: the identity case of C5. -/
def plainResp : SqlResp :=
  { status := some (.str "succ"), desc := none, code := none, head := ["a", "b"],
    column_meta := some [("a", 4, 4), ("b", 8, 10)],
    data := some [[.int 1, .str "x"], [.bool true, .float 3 (-1)]], rows := 2 }

theorem C5_witness :
    plainResp.column_meta = some [("a", 4, 4), ("b", 8, 10)] ∧
    plainResp.data = some [[.int 1, .str "x"], [.bool true, .float 3 (-1)]] ∧
    sql plainResp = .ok plainResp ∧
    (((some [[.int 1, .str "x"], [.bool true, .float 3 (-1)]] :
        Option (List (List CellValue))).bind (fun d => d.get? 0)).bind
      (fun row => row.get? 1)) =
    (((some [[.int 1, .str "x"], [.bool true, .float 3 (-1)]] :
        Option (List (List CellValue))).bind (fun d => d.get? 0)).bind
      (fun row => row.get? 1)) := by
  refine ⟨rfl, rfl, rfl, ?_⟩
  have h := C5_non_timestamp_identity plainResp plainResp _ _ rfl rfl rfl _ rfl 1
    (by intro nm tc sz hh
        rw [List.get?_cons_succ, List.get?_cons_zero] at hh
        cases hh
        decide)
  exact (h 0).trans (h 0).symm

/-- C7: a successful-status response holding, in a typeCode-9 column, a
string that strptime rejects makes sql() fail, and the failure is a
generic parsing failure, never ConnectionError or ExecutionError. -/
theorem C7_parse_failure (resp : SqlResp)
    (meta : List (String × Int × Int)) (data : List (List CellValue))
    (hst : resp.status = some (.str "succ"))
    (hm : resp.column_meta = some meta) (hd : resp.data = some data)
    (i : Nat) (nm : String) (sz : Int) (h9 : meta.get? i = some (nm, 9, sz))
    (row : List CellValue) (hrow : row ∈ data) (s : String)
    (hc : row.get? i = some (.str s)) (hbad : strptime s = none) :
    ∃ e, sql resp = .error e ∧ isDomainError e = false := by
  have hred : sql resp = match convert_time meta data with
      | .error e => .error e
      | .ok data' => .ok { resp with data := some data' } := by
    simp only [sql, hst, hm, hd]
    rw [if_neg (by decide : ¬(CellValue.str "succ" = CellValue.str "error"))]
  cases hconv : convert_time meta data with
  | ok data' =>
    exfalso
    obtain ⟨hlen, hspec⟩ := convertCols_ok meta 0 data data' hconv
    obtain ⟨r, hr⟩ := List.mem_iff_get?.mp hrow
    obtain ⟨row', _, _, _, hts⟩ := hspec r row hr
    obtain ⟨s1, dt, hc1, hp1, _⟩ := hts i (nm, 9, sz) h9 rfl
    rw [Nat.zero_add] at hc1
    rw [hc] at hc1
    cases Option.some.inj hc1
    rw [hbad] at hp1
    cases hp1
  | error e =>
    refine ⟨e, by rw [hred, hconv], ?_⟩
    rcases convertCols_error_kinds meta 0 data e hconv with h | h | h <;> subst h <;> rfl

/-- A successful response with a malformed timestamp string. -/
def badTsResp : SqlResp :=
  { status := some (.str "succ"), desc := none, code := none, head := ["ts"],
    column_meta := some [("ts", 9, 8)],
    data := some [[.str "2022/04/20 14:16"]], rows := 1 }

theorem C7_witness :
    badTsResp.status = some (.str "succ") ∧
    badTsResp.column_meta = some [("ts", 9, 8)] ∧
    strptime "2022/04/20 14:16" = none ∧
    ∃ e, sql badTsResp = .error e ∧ isDomainError e = false :=
  ⟨rfl, rfl, by decide,
   C7_parse_failure badTsResp [("ts", 9, 8)] [[.str "2022/04/20 14:16"]] rfl rfl rfl
     0 "ts" 8 rfl [.str "2022/04/20 14:16"] (by decide) "2022/04/20 14:16" rfl (by decide)⟩

/-- A response whose rows field disagrees with the number of data rows. -/
def rowsMismatchResp : SqlResp :=
  { status := some (.str "succ"), desc := none, code := none, head := ["c"],
    column_meta := some [("c", 4, 4)], data := some [[.int 7]], rows := 2 }

/-- C6 counterexample: the rows field claims 2 rows while data holds one
row; sql() raises no parse or validation error and returns the response
unchanged, mismatch intact. -/
theorem C6_counterexample :
    rowsMismatchResp.rows = 2 ∧
    rowsMismatchResp.data = some [[.int 7]] ∧
    sql rowsMismatchResp = .ok rowsMismatchResp :=
  ⟨rfl, rfl, rfl⟩

/-- C6 (amended): sql() performs no length validation.  Whenever it
returns a result, the rows, head, column_meta and status fields are those
of the response unchanged and the number of data rows is preserved, even
when the rows count disagrees with the data; no error is surfaced for the
mismatch. -/
theorem C6_no_length_validation (resp resp' : SqlResp) (hok : sql resp = .ok resp') :
    resp'.rows = resp.rows ∧ resp'.head = resp.head ∧
    resp'.column_meta = resp.column_meta ∧ resp'.status = resp.status ∧
    ∀ data data', resp.data = some data → resp'.data = some data' →
      data'.length = data.length := by
  obtain ⟨st, meta, data, data', hst, hne, hm, hd, hconv, hresp'⟩ :=
    sql_ok_inv resp resp' hok
  subst hresp'
  refine ⟨rfl, rfl, rfl, rfl, ?_⟩
  intro d0 d0' hd0 hd0'
  rw [hd] at hd0
  obtain rfl : data = d0 := Option.some.inj hd0
  obtain rfl : data' = d0' := Option.some.inj hd0'
  exact (convertCols_ok meta 0 data data' hconv).1

theorem C6_witness :
    sql rowsMismatchResp = .ok rowsMismatchResp ∧
    (rowsMismatchResp.rows = rowsMismatchResp.rows ∧
     rowsMismatchResp.head = rowsMismatchResp.head ∧
     rowsMismatchResp.column_meta = rowsMismatchResp.column_meta ∧
     rowsMismatchResp.status = rowsMismatchResp.status ∧
     ∀ data data', rowsMismatchResp.data = some data →
       rowsMismatchResp.data = some data' → data'.length = data.length) :=
  ⟨rfl, C6_no_length_validation rowsMismatchResp rowsMismatchResp rfl⟩

/-- A well-formed success payload whose dictionary lacks the status key. -/
def noStatusResp : SqlResp :=
  { status := none, desc := some "ok", code := some 0, head := ["a"],
    column_meta := some [("a", 4, 4)], data := some [[.int 1]], rows := 1 }

/-- C10 counterexample: a response whose status field is absent is not
treated as successful — the access `resp["status"]` raises KeyError and
no conversion pass or return happens, contradicting the claim for the
"missing status" shape it includes. -/
theorem C10_counterexample :
    noStatusResp.status = none ∧ sql noStatusResp = .error .keyError :=
  ⟨rfl, rfl⟩

/-- C10 (amended): a query response that carries a status value other than
the exact string "error" — any non-"succ" string or non-string value
included — is treated as successful: sql() runs the timestamp-conversion
pass and returns the rewritten response, and ExecutionError is impossible;
only the exact string "error" triggers ExecutionError, while a response
with no status field raises KeyError. -/
theorem C10_only_error_string (resp : SqlResp)
    (meta : List (String × Int × Int)) (data : List (List CellValue))
    (hm : resp.column_meta = some meta) (hd : resp.data = some data) :
    (∀ v, resp.status = some v → v ≠ .str "error" →
      (sql resp = match convert_time meta data with
        | .error e => .error e
        | .ok data' => .ok { resp with data := some data' }) ∧
      ∀ d c, sql resp ≠ .error (.executionError d c)) ∧
    (resp.status = none → sql resp = .error .keyError) := by
  constructor
  · intro v hst hv
    have hred : sql resp = match convert_time meta data with
        | .error e => .error e
        | .ok data' => .ok { resp with data := some data' } := by
      simp only [sql, hst, hm, hd]
      rw [if_neg hv]
    refine ⟨hred, ?_⟩
    intro d c hcontra
    rw [hred] at hcontra
    cases hconv : convert_time meta data with
    | ok data' => rw [hconv] at hcontra; cases hcontra
    | error e =>
      rw [hconv] at hcontra
      rcases convertCols_error_kinds meta 0 data e hconv with h | h | h <;>
        subst h <;> cases hcontra
  · intro hst
    simp only [sql, hst]

/-- A response whose status is a number, not a string. -/
def intStatusResp : SqlResp :=
  { status := some (.int 42), desc := some "x", code := some 7, head := ["a"],
    column_meta := some [("a", 4, 4)], data := some [[.int 1]], rows := 1 }

theorem C10_witness :
    intStatusResp.status = some (.int 42) ∧
    intStatusResp.column_meta = some [("a", 4, 4)] ∧
    intStatusResp.data = some [[.int 1]] ∧
    sql intStatusResp = .ok intStatusResp ∧
    sql intStatusResp ≠ .error (.executionError "boom" 1) := by
  have h := (C10_only_error_string intStatusResp [("a", 4, 4)] [[.int 1]] rfl rfl).1
    (.int 42) rfl (by decide)
  refine ⟨rfl, rfl, rfl, ?_, h.2 "boom" 1⟩
  rw [h.1]
  rfl

/-- C1: on a successful response, for every column whose typeCode is 9,
sql() replaces the cell of every row — a string of the shape
YYYY-MM-DDTHH:MM:SS.ffffff followed by a numeric UTC offset ±HHMM — with
the parsed timezone-aware datetime whose fields and UTC offset are exactly
those written in the string; the offset is kept verbatim, the time of day
is not shifted to UTC. -/
theorem C1_timestamp_conversion (resp : SqlResp)
    (meta : List (String × Int × Int)) (data : List (List CellValue))
    (hst : resp.status = some (.str "succ"))
    (hm : resp.column_meta = some meta) (hd : resp.data = some data)
    (hwf : ∀ i nm sz, meta.get? i = some (nm, 9, sz) → ∀ row ∈ data,
      ∃ y mo d h mi s us negOff oh om,
        row.get? i = some (.str (canonicalTs y mo d h mi s us negOff oh om)) ∧
        1 ≤ y ∧ y ≤ 9999 ∧ 1 ≤ mo ∧ mo ≤ 12 ∧ 1 ≤ d ∧ d ≤ daysInMonth y mo ∧
        h ≤ 23 ∧ mi ≤ 59 ∧ s ≤ 59 ∧ us ≤ 999999 ∧ oh ≤ 23 ∧ om ≤ 59) :
    ∃ data', sql resp = .ok { resp with data := some data' } ∧
      data'.length = data.length ∧
      ∀ i nm sz, meta.get? i = some (nm, 9, sz) →
        ∀ r row, data.get? r = some row →
          ∀ y mo d h mi s us negOff oh om,
            row.get? i = some (.str (canonicalTs y mo d h mi s us negOff oh om)) →
            1 ≤ y → y ≤ 9999 → 1 ≤ mo → mo ≤ 12 → 1 ≤ d → d ≤ daysInMonth y mo →
            h ≤ 23 → mi ≤ 59 → s ≤ 59 → us ≤ 999999 → oh ≤ 23 → om ≤ 59 →
            ∃ row', data'.get? r = some row' ∧
              row'.get? i = some (.datetime ⟨y, mo, d, h, mi, s, us,
                if negOff then -((oh : Int) * 3600 + (om : Int) * 60)
                else (oh : Int) * 3600 + (om : Int) * 60, 0⟩) := by
  have hconv0 : ∃ data', convert_time meta data = .ok data' := by
    apply convertCols_exists_ok
    intro j m hj hm9 row hrow
    obtain ⟨nm, tc, sz⟩ := m
    have htc : tc = 9 := hm9
    subst htc
    obtain ⟨y, mo, d, h, mi, s, us, negOff, oh, om, hc, hy1, hy2, hmo1, hmo2, hd1, hd2,
      hh, hmi, hs, hus, hoh, hom⟩ := hwf j nm sz hj row hrow
    refine ⟨canonicalTs y mo d h mi s us negOff oh om,
      ⟨y, mo, d, h, mi, s, us,
        if negOff then -((oh : Int) * 3600 + (om : Int) * 60)
        else (oh : Int) * 3600 + (om : Int) * 60, 0⟩, ?_, ?_⟩
    · rw [Nat.zero_add]; exact hc
    · exact strptime_canonicalTs y mo d h mi s us negOff oh om
        hy1 hy2 hmo1 hmo2 hd1 hd2 hh hmi hs hus hoh hom
  obtain ⟨data', hconv⟩ := hconv0
  have hsql : sql resp = .ok { resp with data := some data' } := by
    simp only [sql, hst, hm, hd]
    rw [if_neg (by decide : ¬(CellValue.str "succ" = CellValue.str "error")), hconv]
  obtain ⟨hlen, hspec⟩ := convertCols_ok meta 0 data data' hconv
  refine ⟨data', hsql, hlen, ?_⟩
  intro i nm sz h9 r row hr y mo d h mi s us negOff oh om hc
    hy1 hy2 hmo1 hmo2 hd1 hd2 hh hmi hs hus hoh hom
  obtain ⟨row', hrow', _, _, hts⟩ := hspec r row hr
  obtain ⟨s1, dt, hc1, hp1, hcell⟩ := hts i (nm, 9, sz) h9 rfl
  rw [Nat.zero_add] at hc1 hcell
  rw [hc] at hc1
  obtain rfl : s1 = canonicalTs y mo d h mi s us negOff oh om :=
    (CellValue.str.inj (Option.some.inj hc1)).symm
  rw [strptime_canonicalTs y mo d h mi s us negOff oh om
    hy1 hy2 hmo1 hmo2 hd1 hd2 hh hmi hs hus hoh hom] at hp1
  obtain rfl : dt = ⟨y, mo, d, h, mi, s, us,
      if negOff then -((oh : Int) * 3600 + (om : Int) * 60)
      else (oh : Int) * 3600 + (om : Int) * 60, 0⟩ :=
    (Option.some.inj hp1).symm
  exact ⟨row', hrow', hcell⟩

/-- The example response of the spec: one TIMESTAMP column, one row. -/
def tsResp : SqlResp :=
  { status := some (.str "succ"), desc := none, code := none, head := ["ts"],
    column_meta := some [("ts", 9, 8)],
    data := some [[.str "2022-04-20T14:16:02.522000+0800"]], rows := 1 }

theorem C1_witness :
    tsResp.status = some (.str "succ") ∧
    ∃ data', sql tsResp = .ok { tsResp with data := some data' } ∧
      ∃ row', data'.get? 0 = some row' ∧
        row'.get? 0 = some (.datetime ⟨2022, 4, 20, 14, 16, 2, 522000, 28800, 0⟩) := by
  refine ⟨rfl, ?_⟩
  obtain ⟨data', hsql, hlen, hcell⟩ := C1_timestamp_conversion tsResp [("ts", 9, 8)]
    [[.str "2022-04-20T14:16:02.522000+0800"]] rfl rfl rfl (by
      intro i nm sz hi row hrow
      cases i with
      | zero =>
        rw [List.mem_singleton] at hrow
        subst hrow
        exact ⟨2022, 4, 20, 14, 16, 2, 522000, false, 8, 0, by decide⟩
      | succ n =>
        rw [List.get?_cons_succ, List.get?_nil] at hi
        cases hi)
  obtain ⟨row', hrow', hcv⟩ := hcell 0 "ts" 8 rfl 0 [.str "2022-04-20T14:16:02.522000+0800"]
    rfl 2022 4 20 14 16 2 522000 false 8 0 (by decide) (by decide) (by decide) (by decide)
    (by decide) (by decide) (by decide) (by decide) (by decide) (by decide) (by decide)
    (by decide) (by decide)
  refine ⟨data', hsql, row', hrow', ?_⟩
  rw [hcv]
  decide
